import Mathlib

/-!
Verification of the message-retention and cleanup engine of the
Telegram-Chat-Cleaner-Bot repository (src/messages_repo.py, src/cleaner_bot.py).

The persisted table of `MessageEntity` rows is embedded as a `List MessageEntity`.
In the source schema (`messages_repo.py`, class `MessageEntity`) the column
`message_id` is the sole primary key; `chat_id` and `timestamp` are plain columns.
`MessagesRepo.add_message` calls `session.merge`, which matches rows by that
primary key; the other repository operations are plain filtered queries, mapped
here to list filters and maps.  Timestamps and identifiers are modelled as `Int`.

The bot side (`cleaner_bot.py`) is embedded as explicit state passing over
`BotState` (the message ledger, the `active_groups` set of the dispatcher's
`bot_data`, and the `group_joiner_chats` mapping).  The Telegram transport is a
parameter: the outcome of each `delete_message` call and of the single
`send_message` call of a per-chat cleanup.  Python exceptions escaping a call
are modelled by an `Option PyExn` component of the result, with the state
mutated so far preserved (as it is in Python).
-/

/-- One row of the `messages` table (`messages_repo.py`, `MessageEntity`).
`message_id` is the sole primary key in the source schema. -/
structure MessageEntity where
  message_id : Int
  chat_id : Int
  timestamp : Int
deriving DecidableEq, Repr

/-- Insertion step of the newest-first ordering used by `get_chat_messages`
(`order_by(MessageEntity.timestamp.desc())`). -/
def insertDesc (m : MessageEntity) : List MessageEntity → List MessageEntity
  | [] => [m]
  | x :: xs =>
    if m.timestamp ≤ x.timestamp then x :: insertDesc m xs else m :: x :: xs

/-- Newest-first (timestamp-descending) ordering of a list of rows. -/
def sortNewestFirst (l : List MessageEntity) : List MessageEntity :=
  l.foldr insertDesc []

/-- `MessagesRepo.get_chat_messages`: rows of `chat_id` with
`timestamp > min_timestamp`, ordered by timestamp descending. -/
def get_chat_messages (l : List MessageEntity) (chat_id : Int)
    (min_timestamp : Int) : List MessageEntity :=
  sortNewestFirst
    (l.filter fun r => decide (r.chat_id = chat_id ∧ min_timestamp < r.timestamp))

/-- `MessagesRepo.delete_chat_messages`: delete every row of the chat. -/
def delete_chat_messages (l : List MessageEntity) (chat_id : Int) :
    List MessageEntity :=
  l.filter fun r => decide (r.chat_id ≠ chat_id)

/-- `MessagesRepo.add_message`: `session.merge`, an upsert matching on the
primary key `message_id` alone (the source schema has no other key column). -/
def add_message (l : List MessageEntity) (m : MessageEntity) :
    List MessageEntity :=
  if l.any (fun r => decide (r.message_id = m.message_id)) then
    l.map fun r => if r.message_id = m.message_id then m else r
  else
    l ++ [m]

/-- `MessagesRepo.remove_message`: delete the row with this primary key. -/
def remove_message (l : List MessageEntity) (m : MessageEntity) :
    List MessageEntity :=
  l.filter fun r => decide (r.message_id ≠ m.message_id)

/-- `MessagesRepo.update_chat_id`: rewrite `chat_id` of every row of the old chat. -/
def update_chat_id (l : List MessageEntity) (original_chat_id updated_chat_id : Int) :
    List MessageEntity :=
  l.map fun r =>
    if r.chat_id = original_chat_id then { r with chat_id := updated_chat_id } else r

/-- `MessagesRepo.remove_outdated_messages`: delete every row with
`timestamp < date`. -/
def remove_outdated_messages (l : List MessageEntity) (date : Int) :
    List MessageEntity :=
  l.filter fun r => decide (¬ r.timestamp < date)

/-- The DB primary-key constraint on the `messages` table: `message_id` values
are pairwise distinct. -/
abbrev uniqueIds (l : List MessageEntity) : Prop :=
  l.Pairwise fun a b => a.message_id ≠ b.message_id

/-- Telegram chat types relevant to `_retain_message`. -/
inductive ChatType
  | group
  | supergroup
  | privateChat
  | channel
deriving DecidableEq, Repr

/-- The fields of a `telegram.Message` the core reads. -/
structure TgMessage where
  message_id : Int
  chat_id : Int
  date : Int
  chat_type : ChatType
deriving DecidableEq, Repr

/-- Outcome of one `bot.delete_message` call, as classified by the
`try`/`except` in `_chat_cleanup`: a returned boolean, an `Unauthorized`
exception, or any other exception. -/
inductive DeleteOutcome
  | ok (deleted : Bool)
  | unauthorized
  | otherError
deriving DecidableEq, Repr

/-- Outcome of the `bot.send_message` call of `_send_status_message`: a
returned `Message`, an `Unauthorized` exception (caught there), or any other
exception (not caught there). -/
inductive SendOutcome
  | ok (msg : TgMessage)
  | unauthorized
  | err
deriving DecidableEq, Repr

/-- Transport behaviour during one per-chat cleanup: the outcome of deleting
each message id, and the outcome of sending the status report. -/
structure ChatTransport where
  del : Int → DeleteOutcome
  send : SendOutcome

/-- Python exceptions that can escape `_chat_cleanup`. -/
inductive PyExn
  | attributeError
  | other
deriving DecidableEq, Repr

/-- Process-wide bot state: the messages table, the `active_groups` set and the
`group_joiner_chats` mapping of `bot_data`. -/
structure BotState where
  ledger : List MessageEntity
  active_groups : List Int
  group_joiner_chats : List (Int × String)
deriving DecidableEq, Repr

/-- `set.add` on the active-groups set. -/
def activeAdd (c : Int) (l : List Int) : List Int :=
  if c ∈ l then l else c :: l

/-- `set.discard` on the active-groups set. -/
def activeDiscard (c : Int) (l : List Int) : List Int :=
  l.filter fun x => decide (x ≠ c)

/-- `if chat_id in self._group_joiner_chats: del self._group_joiner_chats[chat_id]`. -/
def joinerDel (c : Int) (j : List (Int × String)) : List (Int × String) :=
  if j.any (fun p => decide (p.1 = c)) then
    j.filter fun p => decide (p.1 ≠ c)
  else j

/-- `CleanerBot._abandon_chat`: drop the chat from `active_groups`, delete all
its ledger rows, and drop its joiner mapping. -/
def abandon_chat (chat_id : Int) (s : BotState) : BotState :=
  { ledger := delete_chat_messages s.ledger chat_id
    active_groups := activeDiscard chat_id s.active_groups
    group_joiner_chats := joinerDel chat_id s.group_joiner_chats }

/-- `CleanerBot._retain_message`: track the message when its chat is a group
or supergroup. -/
def retain_message (m : TgMessage) (s : BotState) : BotState :=
  if m.chat_type = ChatType.group ∨ m.chat_type = ChatType.supergroup then
    { s with ledger := add_message s.ledger ⟨m.message_id, m.chat_id, m.date⟩ }
  else s

/-- `CleanerBot._handle_chat_id_migration`: discard the old id from
`active_groups`, add the new one, and rekey the ledger rows. -/
def handle_chat_id_migration (old_chat_id new_chat_id : Int) (s : BotState) :
    BotState :=
  { s with
    active_groups := activeAdd new_chat_id (activeDiscard old_chat_id s.active_groups)
    ledger := update_chat_id s.ledger old_chat_id new_chat_id }

/-- `timedelta(days=2)` in seconds. -/
def twoDays : Int := 172800

/-- `CleanerBot._deletion_limit`: `utcnow() - timedelta(days=2)`. -/
def deletion_limit (now : Int) : Int := now - twoDays

/-- Accumulated result of the deletion loop of `_chat_cleanup`. -/
structure LoopResult where
  ledger : List MessageEntity
  deletedCount : Nat
  attempted : List Int
  unauthorized : Bool
deriving Repr

/-- The `for message_entity in recent_messages` loop of `_chat_cleanup`:
attempt deletion of each entity in order; on `Unauthorized` set the flag and
break; on any other exception keep going with `deleted = False`; remove the
row from the repo whenever the call returned a truthy value. -/
def deletionLoop (tp : ChatTransport) :
    List MessageEntity → List MessageEntity → LoopResult
  | ledger, [] => ⟨ledger, 0, [], false⟩
  | ledger, m :: rest =>
    match tp.del m.message_id with
    | DeleteOutcome.unauthorized => ⟨ledger, 0, [m.message_id], true⟩
    | DeleteOutcome.otherError =>
      let r := deletionLoop tp ledger rest
      ⟨r.ledger, r.deletedCount, m.message_id :: r.attempted, r.unauthorized⟩
    | DeleteOutcome.ok deleted =>
      if deleted then
        let r := deletionLoop tp (remove_message ledger m) rest
        ⟨r.ledger, r.deletedCount + 1, m.message_id :: r.attempted, r.unauthorized⟩
      else
        let r := deletionLoop tp ledger rest
        ⟨r.ledger, r.deletedCount, m.message_id :: r.attempted, r.unauthorized⟩

/-- Result of one `_chat_cleanup` call: the bot state afterwards, the Python
exception escaping the call (if any), the message ids for which a deletion was
attempted, and the text handed to `_send_status_message` (if reached). -/
structure CleanupResult where
  state : BotState
  exn : Option PyExn
  attempted : List Int
  sentReport : Option String
deriving Repr

/-- `CleanerBot._chat_cleanup`.  After the loop: on the `unauthorized` flag,
abandon the chat and return.  Otherwise compose the report and send it; on a
successful send the returned message is retained; when `_send_status_message`
swallows `Unauthorized` it abandons the chat and returns `None`, and the
subsequent `_retain_message(None)` raises `AttributeError`; any other send
exception escapes directly. -/
def chatCleanup (tp : ChatTransport) (now : Int) (chat_id : Int) (s : BotState) :
    CleanupResult :=
  let deletion_threshold := deletion_limit now
  let recent_messages := get_chat_messages s.ledger chat_id deletion_threshold
  let r := deletionLoop tp s.ledger recent_messages
  let s1 : BotState := { s with ledger := r.ledger }
  if r.unauthorized then
    { state := abandon_chat chat_id s1, exn := none,
      attempted := r.attempted, sentReport := none }
  else
    let n := r.deletedCount
    let fails := recent_messages.length - n
    let report :=
      "Removed " ++ toString n ++ " recent messages. Failed to remove: " ++
        toString fails ++ "."
    match tp.send with
    | SendOutcome.ok msg =>
      { state := retain_message msg s1, exn := none,
        attempted := r.attempted, sentReport := some report }
    | SendOutcome.unauthorized =>
      { state := abandon_chat chat_id s1, exn := some PyExn.attributeError,
        attempted := r.attempted, sentReport := some report }
    | SendOutcome.err =>
      { state := s1, exn := some PyExn.other,
        attempted := r.attempted, sentReport := some report }

/-- The `for group_chat_id in active_groups` loop of `_perform_total_cleanup`:
run `_chat_cleanup` for each chat of the snapshot, swallowing any exception
(the bare `except` logs and continues).  Also returns the list of chats
processed, in order. -/
def processChats (tps : Int → ChatTransport) (now : Int) :
    List Int → BotState → BotState × List Int
  | [], s => (s, [])
  | c :: rest, s =>
    let res := chatCleanup (tps c) now c s
    let next := processChats tps now rest res.state
    (next.1, c :: next.2)

/-- `CleanerBot._perform_total_cleanup`: iterate a copy of `active_groups`,
then remove outdated rows globally. -/
def totalCleanup (tps : Int → ChatTransport) (now : Int) (s : BotState) :
    BotState × List Int :=
  let pr := processChats tps now s.active_groups s
  ({ pr.1 with ledger := remove_outdated_messages pr.1.ledger (deletion_limit now) },
    pr.2)


/-- Example transport for a cleanup of chat 7: deleting message 103 raises
`Unauthorized`, every other deletion succeeds. -/
def exTransportA : ChatTransport :=
  { del := fun mid =>
      if mid = 103 then DeleteOutcome.unauthorized else DeleteOutcome.ok true
    send := SendOutcome.ok ⟨999, 7, 60, ChatType.group⟩ }

/-- Example state: five in-window messages of chat 7, chat 7 active. -/
def exStateA : BotState :=
  { ledger := [⟨101, 7, 50⟩, ⟨102, 7, 40⟩, ⟨103, 7, 30⟩, ⟨104, 7, 20⟩, ⟨105, 7, 10⟩]
    active_groups := [7]
    group_joiner_chats := [] }

/-- Example transport whose report send raises `Unauthorized`. -/
def exTransportB : ChatTransport :=
  { del := fun _ => DeleteOutcome.ok true
    send := SendOutcome.unauthorized }

/-- Example state: one in-window message of chat 9, chat 9 active and owning a
joiner name. -/
def exStateB : BotState :=
  { ledger := [⟨1, 9, 100⟩]
    active_groups := [9]
    group_joiner_chats := [(9, "room")] }

/-- Example state: a ledger row of chat 10 while chat 10 is absent from the
active set. -/
def exStateC : BotState :=
  { ledger := [⟨1, 10, 0⟩]
    active_groups := []
    group_joiner_chats := [] }

/-- Example transport for a cleanup of chat 200 with no eligible messages. -/
def exTransportD : ChatTransport :=
  { del := fun _ => DeleteOutcome.ok true
    send := SendOutcome.ok ⟨11, 200, 30, ChatType.group⟩ }

/-- Example state: empty ledger, chat 200 active. -/
def exStateD : BotState :=
  { ledger := []
    active_groups := [200]
    group_joiner_chats := [] }

/-- Example transport family: every deletion succeeds, and the status report
sent during any chat cleanup is message 5 of chat 200. -/
def exTransportE : Int → ChatTransport :=
  fun _ =>
    { del := fun _ => DeleteOutcome.ok true
      send := SendOutcome.ok ⟨5, 200, 100, ChatType.group⟩ }

/-- Example state: a record of chat 100 with message id 5 sitting exactly on
the cutoff of a cleanup at time 172800, while only chat 200 is active. -/
def exStateE : BotState :=
  { ledger := [⟨5, 100, 0⟩]
    active_groups := [200]
    group_joiner_chats := [] }

/-- Example transport family: every deletion succeeds, and the status report
sent during any chat cleanup is message 2 of chat 5. -/
def exTransportF : Int → ChatTransport :=
  fun _ =>
    { del := fun _ => DeleteOutcome.ok true
      send := SendOutcome.ok ⟨2, 5, 100, ChatType.group⟩ }

/-- Example state: a record of chat 5 with message id 1 sitting exactly on the
cutoff of a cleanup at time 172800, chat 5 active. -/
def exStateF : BotState :=
  { ledger := [⟨1, 5, 0⟩]
    active_groups := [5]
    group_joiner_chats := [] }

/-! ### Helper lemmas on the repository operations -/

theorem insertDesc_perm (m : MessageEntity) (l : List MessageEntity) :
    (insertDesc m l).Perm (m :: l) := by
  induction l with
  | nil => exact List.Perm.refl _
  | cons x xs ih =>
    unfold insertDesc
    by_cases h : m.timestamp ≤ x.timestamp
    · simp only [h, if_pos]
      exact (ih.cons x).trans (List.Perm.swap m x xs)
    · simp only [h, if_neg, not_false_iff]
      exact List.Perm.refl _

theorem sortNewestFirst_perm (l : List MessageEntity) :
    (sortNewestFirst l).Perm l := by
  induction l with
  | nil => exact List.Perm.refl _
  | cons x xs ih =>
    have h1 : sortNewestFirst (x :: xs) = insertDesc x (sortNewestFirst xs) := rfl
    rw [h1]
    exact (insertDesc_perm x (sortNewestFirst xs)).trans (ih.cons x)

theorem insertDesc_pairwise (m : MessageEntity) (l : List MessageEntity)
    (h : l.Pairwise fun a b => b.timestamp ≤ a.timestamp) :
    (insertDesc m l).Pairwise fun a b => b.timestamp ≤ a.timestamp := by
  induction l with
  | nil => simp [insertDesc]
  | cons x xs ih =>
    rw [List.pairwise_cons] at h
    obtain ⟨hx, hxs⟩ := h
    unfold insertDesc
    by_cases hc : m.timestamp ≤ x.timestamp
    · simp only [hc, if_pos]
      rw [List.pairwise_cons]
      refine ⟨?_, ih hxs⟩
      intro b hb
      have hb' : b ∈ m :: xs := (insertDesc_perm m xs).subset hb
      rcases List.mem_cons.mp hb' with hbm | hbxs
      · subst hbm; exact hc
      · exact hx b hbxs
    · simp only [hc, if_neg, not_false_iff]
      rw [List.pairwise_cons]
      refine ⟨?_, ?_⟩
      · intro b hb
        rcases List.mem_cons.mp hb with hbx | hbxs
        · subst hbx; exact le_of_lt (lt_of_not_le hc)
        · exact le_trans (hx b hbxs) (le_of_lt (lt_of_not_le hc))
      · exact List.pairwise_cons.mpr ⟨hx, hxs⟩

theorem sortNewestFirst_pairwise (l : List MessageEntity) :
    (sortNewestFirst l).Pairwise fun a b => b.timestamp ≤ a.timestamp := by
  induction l with
  | nil => simp [sortNewestFirst]
  | cons x xs ih => exact insertDesc_pairwise x (sortNewestFirst xs) ih

theorem filter_filter_self {α : Type} (p : α → Bool) (l : List α) :
    (l.filter p).filter p = l.filter p := by
  induction l with
  | nil => rfl
  | cons x xs ih =>
    cases hx : p x with
    | true => simp [List.filter_cons, hx, ih]
    | false => simp [List.filter_cons, hx, ih]

theorem joinerDel_idem (c : Int) (j : List (Int × String)) :
    joinerDel c (joinerDel c j) = joinerDel c j := by
  unfold joinerDel
  cases hany : j.any (fun p => decide (p.1 = c)) with
  | false => simp [hany]
  | true =>
    simp only [hany, if_pos]
    have hnone : (j.filter fun p => decide (p.1 ≠ c)).any (fun p => decide (p.1 = c)) = false := by
      rw [Bool.eq_false_iff]
      intro hcon
      rw [List.any_eq_true] at hcon
      obtain ⟨x, hx, hxc⟩ := hcon
      rw [List.mem_filter] at hx
      rw [decide_eq_true_eq] at hxc
      have := hx.2
      rw [decide_eq_true_eq] at this
      exact this hxc
    simp [hnone]

theorem activeDiscard_idem (c : Int) (l : List Int) :
    activeDiscard c (activeDiscard c l) = activeDiscard c l :=
  filter_filter_self _ l

theorem delete_chat_messages_idem (c : Int) (l : List MessageEntity) :
    delete_chat_messages (delete_chat_messages l c) c = delete_chat_messages l c :=
  filter_filter_self _ l

theorem not_mem_activeDiscard (c : Int) (l : List Int) :
    c ∉ activeDiscard c l := by
  intro h
  rw [activeDiscard, List.mem_filter, decide_eq_true_eq] at h
  exact h.2 rfl

theorem mem_delete_chat_messages {r : MessageEntity} {l : List MessageEntity}
    {c : Int} (h : r ∈ delete_chat_messages l c) : r.chat_id ≠ c := by
  rw [delete_chat_messages, List.mem_filter, decide_eq_true_eq] at h
  exact h.2

theorem add_message_id_preserved (e r : MessageEntity) :
    (if r.message_id = e.message_id then e else r).message_id = r.message_id := by
  by_cases h : r.message_id = e.message_id
  · simp [h]
  · simp [h]

theorem add_message_uniqueIds {l : List MessageEntity} (e : MessageEntity)
    (hu : uniqueIds l) : uniqueIds (add_message l e) := by
  unfold add_message
  cases hany : l.any (fun r => decide (r.message_id = e.message_id)) with
  | true =>
    simp only [hany, if_pos]
    unfold uniqueIds at hu ⊢
    rw [List.pairwise_map]
    refine hu.imp ?_
    intro a b hab
    rw [add_message_id_preserved, add_message_id_preserved]
    exact hab
  | false =>
    simp only [hany, Bool.false_eq_true, if_neg, not_false_iff]
    unfold uniqueIds at hu ⊢
    rw [List.pairwise_append]
    refine ⟨hu, List.pairwise_singleton _ _, ?_⟩
    intro a ha b hb
    rw [List.mem_singleton] at hb
    intro hcon
    rw [hb] at hcon
    have : l.any (fun r => decide (r.message_id = e.message_id)) = true :=
      List.any_eq_true.mpr ⟨a, ha, by rw [decide_eq_true_eq]; exact hcon⟩
    rw [hany] at this
    exact Bool.false_ne_true this

theorem mem_add_message {l : List MessageEntity} {r : MessageEntity}
    (e : MessageEntity) (hr : r ∈ l) (hne : r.message_id ≠ e.message_id) :
    r ∈ add_message l e := by
  unfold add_message
  cases hany : l.any (fun x => decide (x.message_id = e.message_id)) with
  | true =>
    simp only [hany, if_pos]
    have : (if r.message_id = e.message_id then e else r) = r := by simp [hne]
    rw [← this]
    exact List.mem_map_of_mem _ hr
  | false =>
    simp only [hany, Bool.false_eq_true, if_neg, not_false_iff]
    exact List.mem_append_left _ hr

theorem filter_pair_map_eq_nil (e : MessageEntity) (l : List MessageEntity)
    (h : ∀ r ∈ l, r.message_id ≠ e.message_id) :
    ((l.map fun r => if r.message_id = e.message_id then e else r).filter
      fun r => decide (r.chat_id = e.chat_id ∧ r.message_id = e.message_id)) = [] := by
  induction l with
  | nil => rfl
  | cons x xs ih =>
    have hx : x.message_id ≠ e.message_id := h x (List.mem_cons_self x xs)
    simp only [List.map_cons]
    rw [if_neg hx, List.filter_cons]
    have : (decide (x.chat_id = e.chat_id ∧ x.message_id = e.message_id)) = false := by
      simp [hx]
    rw [this]
    simp only [Bool.false_eq_true, if_neg, not_false_iff]
    exact ih fun r hr => h r (List.mem_cons_of_mem x hr)

theorem add_message_filter_pair (e : MessageEntity) :
    ∀ l : List MessageEntity, uniqueIds l →
    ((add_message l e).filter
      fun r => decide (r.chat_id = e.chat_id ∧ r.message_id = e.message_id)) = [e] := by
  intro l
  induction l with
  | nil =>
    intro _
    simp [add_message, List.filter_cons]
  | cons x xs ih =>
    intro hu
    unfold uniqueIds at hu
    rw [List.pairwise_cons] at hu
    obtain ⟨hx, hxs⟩ := hu
    unfold add_message
    by_cases hxe : x.message_id = e.message_id
    · have hany : ((x :: xs).any fun r => decide (r.message_id = e.message_id)) = true :=
        List.any_eq_true.mpr ⟨x, List.mem_cons_self x xs, by
          rw [decide_eq_true_eq]; exact hxe⟩
      simp only [hany, if_pos, List.map_cons]
      rw [if_pos hxe, List.filter_cons]
      have he : (decide (e.chat_id = e.chat_id ∧ e.message_id = e.message_id)) = true := by
        simp
      rw [he]
      simp only [if_pos]
      rw [filter_pair_map_eq_nil]
      intro r hr
      have := hx r hr
      rw [← hxe]
      exact fun hcon => this hcon.symm
    · cases hany : (x :: xs).any (fun r => decide (r.message_id = e.message_id)) with
      | true =>
        have hanyxs : (xs.any fun r => decide (r.message_id = e.message_id)) = true := by
          rw [List.any_cons] at hany
          have hxf : (decide (x.message_id = e.message_id)) = false := by simp [hxe]
          rw [hxf] at hany
          simpa using hany
        simp only [hany, if_pos, List.map_cons]
        rw [if_neg hxe, List.filter_cons]
        have hxf : (decide (x.chat_id = e.chat_id ∧ x.message_id = e.message_id)) = false := by
          simp [hxe]
        rw [hxf]
        simp only [Bool.false_eq_true, if_neg, not_false_iff]
        have := ih hxs
        rw [add_message, hanyxs] at this
        simpa using this
      | false =>
        have hanyxs : (xs.any fun r => decide (r.message_id = e.message_id)) = false := by
          rw [List.any_cons] at hany
          rcases Bool.or_eq_false_iff.mp hany with ⟨_, h2⟩
          exact h2
        simp only [hany, Bool.false_eq_true, if_neg, not_false_iff]
        rw [List.cons_append, List.filter_cons]
        have hxf : (decide (x.chat_id = e.chat_id ∧ x.message_id = e.message_id)) = false := by
          simp [hxe]
        rw [hxf]
        simp only [Bool.false_eq_true, if_neg, not_false_iff]
        have := ih hxs
        rw [add_message, hanyxs] at this
        simp only [Bool.false_eq_true, if_neg, not_false_iff] at this
        exact this

theorem mem_of_mem_get_chat_messages {l : List MessageEntity} {c min_ts : Int}
    {m : MessageEntity} (h : m ∈ get_chat_messages l c min_ts) :
    m ∈ l ∧ m.chat_id = c ∧ min_ts < m.timestamp := by
  unfold get_chat_messages at h
  have h' := (sortNewestFirst_perm _).subset h
  rw [List.mem_filter, decide_eq_true_eq] at h'
  exact ⟨h'.1, h'.2.1, h'.2.2⟩

theorem deletionLoop_attempted (tp : ChatTransport) :
    ∀ (msgs ledger : List MessageEntity), ∃ k,
      (deletionLoop tp ledger msgs).attempted =
        (msgs.map fun m => m.message_id).take k := by
  intro msgs
  induction msgs with
  | nil => intro ledger; exact ⟨0, rfl⟩
  | cons m rest ih =>
    intro ledger
    unfold deletionLoop
    cases hdel : tp.del m.message_id with
    | unauthorized =>
      refine ⟨1, ?_⟩
      simp
    | otherError =>
      obtain ⟨k, hk⟩ := ih ledger
      refine ⟨k + 1, ?_⟩
      simp only [List.map_cons, List.take_succ_cons]
      rw [← hk]
    | ok deleted =>
      cases deleted with
      | true =>
        obtain ⟨k, hk⟩ := ih (remove_message ledger m)
        refine ⟨k + 1, ?_⟩
        simp only [Bool.true_eq_false, if_pos, List.map_cons, List.take_succ_cons]
        rw [← hk]
      | false =>
        obtain ⟨k, hk⟩ := ih ledger
        refine ⟨k + 1, ?_⟩
        simp only [Bool.false_eq_true, if_neg, not_false_iff, List.map_cons,
          List.take_succ_cons]
        rw [← hk]

theorem deletionLoop_keeps (tp : ChatTransport) {r : MessageEntity} :
    ∀ (msgs ledger : List MessageEntity), r ∈ ledger →
      (∀ m ∈ msgs, m.message_id ≠ r.message_id) →
      r ∈ (deletionLoop tp ledger msgs).ledger := by
  intro msgs
  induction msgs with
  | nil => intro ledger hr _; exact hr
  | cons m rest ih =>
    intro ledger hr hne
    unfold deletionLoop
    cases hdel : tp.del m.message_id with
    | unauthorized => exact hr
    | otherError =>
      exact ih ledger hr fun x hx => hne x (List.mem_cons_of_mem m hx)
    | ok deleted =>
      cases deleted with
      | true =>
        simp only [Bool.true_eq_false, if_pos]
        refine ih (remove_message ledger m) ?_
          (fun x hx => hne x (List.mem_cons_of_mem m hx))
        rw [remove_message, List.mem_filter, decide_eq_true_eq]
        exact ⟨hr, fun hcon => hne m (List.mem_cons_self m rest) hcon.symm⟩
      | false =>
        simp only [Bool.false_eq_true, if_neg, not_false_iff]
        exact ih ledger hr fun x hx => hne x (List.mem_cons_of_mem m hx)

theorem deletionLoop_uniqueIds (tp : ChatTransport) :
    ∀ (msgs ledger : List MessageEntity), uniqueIds ledger →
      uniqueIds (deletionLoop tp ledger msgs).ledger := by
  intro msgs
  induction msgs with
  | nil => intro ledger hu; exact hu
  | cons m rest ih =>
    intro ledger hu
    unfold deletionLoop
    cases hdel : tp.del m.message_id with
    | unauthorized => exact hu
    | otherError => exact ih ledger hu
    | ok deleted =>
      cases deleted with
      | true =>
        simp only [Bool.true_eq_false, if_pos]
        exact ih (remove_message ledger m) (List.Pairwise.filter _ hu)
      | false =>
        simp only [Bool.false_eq_true, if_neg, not_false_iff]
        exact ih ledger hu

theorem deletionLoop_no_unauthorized (tp : ChatTransport)
    (hdel : ∀ mid, tp.del mid ≠ DeleteOutcome.unauthorized) :
    ∀ (msgs ledger : List MessageEntity),
      (deletionLoop tp ledger msgs).unauthorized = false := by
  intro msgs
  induction msgs with
  | nil => intro ledger; rfl
  | cons m rest ih =>
    intro ledger
    unfold deletionLoop
    cases hd : tp.del m.message_id with
    | unauthorized => exact absurd hd (hdel m.message_id)
    | otherError => exact ih ledger
    | ok deleted =>
      cases deleted with
      | true =>
        simp only [Bool.true_eq_false, if_pos]
        exact ih (remove_message ledger m)
      | false =>
        simp only [Bool.false_eq_true, if_neg, not_false_iff]
        exact ih ledger

theorem chatCleanup_keeps (tp : ChatTransport) (now c : Int) (s : BotState)
    (r : MessageEntity) (hr : r ∈ s.ledger) (hu : uniqueIds s.ledger)
    (ht : r.timestamp = deletion_limit now)
    (hguard : c = r.chat_id →
      (∀ mid, tp.del mid ≠ DeleteOutcome.unauthorized) ∧
        tp.send ≠ SendOutcome.unauthorized)
    (hrep : ∀ msg, tp.send = SendOutcome.ok msg → msg.message_id ≠ r.message_id) :
    r ∈ (chatCleanup tp now c s).state.ledger ∧
      uniqueIds (chatCleanup tp now c s).state.ledger := by
  have hA : ∀ m ∈ get_chat_messages s.ledger c (deletion_limit now),
      m.message_id ≠ r.message_id := by
    intro m hm
    obtain ⟨hml, _, hmt⟩ := mem_of_mem_get_chat_messages hm
    have hmr : m ≠ r := by
      intro he
      rw [he, ht] at hmt
      exact lt_irrefl _ hmt
    have hsym : Symmetric (fun a b : MessageEntity => a.message_id ≠ b.message_id) :=
      fun a b h he => h he.symm
    exact List.Pairwise.forall hsym hu hml hr hmr
  have hrL : r ∈ (deletionLoop tp s.ledger
      (get_chat_messages s.ledger c (deletion_limit now))).ledger :=
    deletionLoop_keeps tp _ _ hr hA
  have huL : uniqueIds (deletionLoop tp s.ledger
      (get_chat_messages s.ledger c (deletion_limit now))).ledger :=
    deletionLoop_uniqueIds tp _ _ hu
  simp only [chatCleanup]
  cases hua : (deletionLoop tp s.ledger
      (get_chat_messages s.ledger c (deletion_limit now))).unauthorized with
  | true =>
    have hcr : c ≠ r.chat_id := by
      intro he
      obtain ⟨hdel, _⟩ := hguard he
      rw [deletionLoop_no_unauthorized tp hdel] at hua
      exact Bool.false_ne_true hua
    simp only [hua, if_pos, abandon_chat]
    constructor
    · rw [delete_chat_messages, List.mem_filter, decide_eq_true_eq]
      exact ⟨hrL, fun hcon => hcr hcon.symm⟩
    · exact List.Pairwise.filter _ huL
  | false =>
    simp only [hua, Bool.false_eq_true, if_neg, not_false_iff]
    cases hs : tp.send with
    | ok msg =>
      simp only [retain_message]
      by_cases hty : msg.chat_type = ChatType.group ∨ msg.chat_type = ChatType.supergroup
      · simp only [hty, if_pos]
        have hne : r.message_id ≠ msg.message_id := by
          intro hcon
          exact hrep msg hs hcon.symm
        exact ⟨mem_add_message _ hrL hne, add_message_uniqueIds _ huL⟩
      · simp only [hty, if_neg, not_false_iff]
        exact ⟨hrL, huL⟩
    | unauthorized =>
      have hcr : c ≠ r.chat_id := by
        intro he
        obtain ⟨_, hsnd⟩ := hguard he
        exact hsnd hs
      simp only [abandon_chat]
      constructor
      · rw [delete_chat_messages, List.mem_filter, decide_eq_true_eq]
        exact ⟨hrL, fun hcon => hcr hcon.symm⟩
      · exact List.Pairwise.filter _ huL
    | err => exact ⟨hrL, huL⟩

theorem processChats_trace (tps : Int → ChatTransport) (now : Int) :
    ∀ (chats : List Int) (s : BotState),
      (processChats tps now chats s).2 = chats := by
  intro chats
  induction chats with
  | nil => intro s; rfl
  | cons c rest ih =>
    intro s
    simp only [processChats]
    rw [ih]

theorem processChats_keeps (tps : Int → ChatTransport) (now : Int)
    (r : MessageEntity) (ht : r.timestamp = deletion_limit now)
    (hguard : (∀ mid, (tps r.chat_id).del mid ≠ DeleteOutcome.unauthorized) ∧
      (tps r.chat_id).send ≠ SendOutcome.unauthorized)
    (hrep : ∀ c msg, (tps c).send = SendOutcome.ok msg →
      msg.message_id ≠ r.message_id) :
    ∀ (chats : List Int) (s : BotState), r ∈ s.ledger → uniqueIds s.ledger →
      r ∈ (processChats tps now chats s).1.ledger ∧
        uniqueIds (processChats tps now chats s).1.ledger := by
  intro chats
  induction chats with
  | nil => intro s hr hu; exact ⟨hr, hu⟩
  | cons c rest ih =>
    intro s hr hu
    simp only [processChats]
    have hstep := chatCleanup_keeps (tps c) now c s r hr hu ht
      (fun he => by rw [he]; exact hguard) (hrep c)
    exact ih _ hstep.1 hstep.2

theorem update_chat_id_point (a b : Int) (r : MessageEntity) :
    (fun x : MessageEntity =>
      if x.chat_id = a then { x with chat_id := b } else x)
    ((fun x : MessageEntity =>
      if x.chat_id = a then { x with chat_id := b } else x) r) =
    (fun x : MessageEntity =>
      if x.chat_id = a then { x with chat_id := b } else x) r := by
  cases r with
  | mk mid cid ts =>
    by_cases h : cid = a
    · subst h
      by_cases hba : b = cid
      · subst hba
        simp
      · simp [hba]
    · simp [h]

theorem update_chat_id_idem (l : List MessageEntity) (a b : Int) :
    update_chat_id (update_chat_id l a b) a b = update_chat_id l a b := by
  unfold update_chat_id
  rw [List.map_map]
  apply List.map_congr_left
  intro r _
  exact update_chat_id_point a b r

theorem active_migrate_idem (a b : Int) (l : List Int) :
    activeAdd b (activeDiscard a (activeAdd b (activeDiscard a l))) =
      activeAdd b (activeDiscard a l) := by
  by_cases hb : b ∈ activeDiscard a l
  · have hinner : activeAdd b (activeDiscard a l) = activeDiscard a l := by
      rw [activeAdd, if_pos hb]
    rw [hinner, activeDiscard_idem, hinner]
  · have hinner : activeAdd b (activeDiscard a l) = b :: activeDiscard a l := by
      rw [activeAdd, if_neg hb]
    by_cases hba : b = a
    · have h1 : activeDiscard a (b :: activeDiscard a l) = activeDiscard a l := by
        rw [activeDiscard, List.filter_cons]
        have hfb : (decide (b ≠ a)) = false := by simp [hba]
        rw [hfb]
        simp only [Bool.false_eq_true, if_neg, not_false_iff]
        exact activeDiscard_idem a l
      rw [hinner, h1, hinner]
    · have h1 : activeDiscard a (b :: activeDiscard a l) = b :: activeDiscard a l := by
        rw [activeDiscard, List.filter_cons]
        have hfb : (decide (b ≠ a)) = true := by simp [hba]
        rw [hfb]
        simp only [if_pos]
        exact congrArg (fun t => b :: t) (activeDiscard_idem a l)
      rw [hinner, h1, activeAdd, if_pos (List.mem_cons_self b _)]


theorem chatCleanup_attempted_eq (tp : ChatTransport) (now c : Int) (s : BotState) :
    (chatCleanup tp now c s).attempted =
      (deletionLoop tp s.ledger
        (get_chat_messages s.ledger c (deletion_limit now))).attempted := by
  simp only [chatCleanup]
  cases hua : (deletionLoop tp s.ledger
      (get_chat_messages s.ledger c (deletion_limit now))).unauthorized with
  | true => simp [hua]
  | false =>
    simp only [hua, Bool.false_eq_true, if_neg, not_false_iff]
    cases hs : tp.send <;> simp

/-! ### Claim theorems -/

/-- C1: the spec claims the ledger keys records by the `(chat_id, message_id)`
pair, so upserting two messages with equal `message_id` but different `chat_id`
yields two distinct records.  In the code `message_id` is the sole primary key
of the `messages` table and `add_message` merges on it: upserting
`(message 1, chat 10)` and then `(message 1, chat 20)` leaves a single record,
the second one; the first chat's record is silently overwritten.  This theorem
evaluates the embedded `add_message` at that failing input. -/
theorem upsert_cross_chat_collapse :
    add_message (add_message [] ⟨1, 10, 0⟩) ⟨1, 20, 5⟩ = [⟨1, 20, 5⟩] ∧
      (⟨1, 10, 0⟩ : MessageEntity) ∉
        add_message (add_message [] ⟨1, 10, 0⟩) ⟨1, 20, 5⟩ := by
  decide

/-- C8: `add_message` twice with the same `(chat_id, message_id)` and two
timestamps yields exactly one record for that key, carrying the timestamp of
the second upsert.  `uniqueIds` is the primary-key constraint of the table. -/
theorem upsert_latest_timestamp (l : List MessageEntity) (c m t1 t2 : Int)
    (hu : uniqueIds l) :
    ((add_message (add_message l ⟨m, c, t1⟩) ⟨m, c, t2⟩).filter
      fun r => decide (r.chat_id = c ∧ r.message_id = m)) = [⟨m, c, t2⟩] := by
  have h1 : uniqueIds (add_message l ⟨m, c, t1⟩) := add_message_uniqueIds _ hu
  exact add_message_filter_pair ⟨m, c, t2⟩ (add_message l ⟨m, c, t1⟩) h1

/-- Witness for C8 at a concrete ledger. -/
theorem upsert_latest_timestamp_witness :
    ((add_message (add_message [⟨3, 4, 7⟩] ⟨9, 4, 1⟩) ⟨9, 4, 2⟩).filter
      fun r => decide (r.chat_id = 4 ∧ r.message_id = 9)) = [⟨9, 4, 2⟩] :=
  upsert_latest_timestamp [⟨3, 4, 7⟩] 4 9 1 2 (by decide)

/-- C6: abandoning a chat leaves no ledger record of the chat and removes it
from the active set, and abandoning an already-abandoned chat changes nothing
(applying `_abandon_chat` twice equals applying it once). -/
theorem abandon_chat_removes_and_idem (c : Int) (s : BotState) :
    (∀ r ∈ (abandon_chat c s).ledger, r.chat_id ≠ c) ∧
      c ∉ (abandon_chat c s).active_groups ∧
      abandon_chat c (abandon_chat c s) = abandon_chat c s := by
  refine ⟨?_, ?_, ?_⟩
  · intro r hr
    exact mem_delete_chat_messages hr
  · exact not_mem_activeDiscard c _
  · simp only [abandon_chat]
    rw [delete_chat_messages_idem, activeDiscard_idem, joinerDel_idem]

/-- C4 (counterexample): with chat 10 absent from the active set but a ledger
record under chat 10 present, `_handle_chat_id_migration 10 20` is not skipped:
it changes the state (chat 20 is inserted into the active set and the ledger
record is rekeyed), refuting the claim that the remap leaves the state
unchanged when the old id is absent. -/
theorem migration_no_skip_counterexample :
    (10 : Int) ∉ exStateC.active_groups ∧
      handle_chat_id_migration 10 20 exStateC ≠ exStateC := by
  decide

/-- C4 (amended): the chat-id remap is idempotent — applying
`_handle_chat_id_migration` twice equals applying it once — but there is no
absent-old-id skip in the code (see the counterexample). -/
theorem migration_idempotent (old_chat_id new_chat_id : Int) (s : BotState) :
    handle_chat_id_migration old_chat_id new_chat_id
        (handle_chat_id_migration old_chat_id new_chat_id s) =
      handle_chat_id_migration old_chat_id new_chat_id s := by
  simp only [handle_chat_id_migration]
  rw [update_chat_id_idem, active_migrate_idem]

/-- C5: a global cleanup iterates the whole snapshot of the active set — the
per-chat cleanups of later chats run regardless of what earlier ones produced,
any exception of a single chat's cleanup being swallowed by the loop (this
holds for every transport family, in particular ones whose cleanups raise) —
and the final global prune runs afterwards, so no out-of-window record remains
in the ledger. -/
theorem global_cleanup_processes_all (tps : Int → ChatTransport) (now : Int)
    (s : BotState) :
    (totalCleanup tps now s).2 = s.active_groups ∧
      ∀ r ∈ (totalCleanup tps now s).1.ledger,
        deletion_limit now ≤ r.timestamp := by
  constructor
  · simp only [totalCleanup]
    exact processChats_trace tps now _ s
  · intro r hr
    simp only [totalCleanup, remove_outdated_messages] at hr
    rw [List.mem_filter, decide_eq_true_eq] at hr
    exact le_of_not_lt hr.2

/-- C7: `get_chat_messages` returns exactly the rows of the chat with
timestamp strictly greater than the cutoff (a permutation of that filter),
ordered newest-first (pairwise non-increasing timestamps), and the per-chat
cleanup attempts deletions along a prefix of exactly that order. -/
theorem messages_since_order (ledger : List MessageEntity) (c cutoff : Int)
    (tp : ChatTransport) (now chat_id : Int) (s : BotState) :
    (get_chat_messages ledger c cutoff).Perm
        (ledger.filter fun r => decide (r.chat_id = c ∧ cutoff < r.timestamp)) ∧
      (get_chat_messages ledger c cutoff).Pairwise
        (fun a b => b.timestamp ≤ a.timestamp) ∧
      ∃ k, (chatCleanup tp now chat_id s).attempted =
        ((get_chat_messages s.ledger chat_id (deletion_limit now)).map
          fun m => m.message_id).take k := by
  refine ⟨sortNewestFirst_perm _, sortNewestFirst_pairwise _, ?_⟩
  obtain ⟨k, hk⟩ := deletionLoop_attempted tp
    (get_chat_messages s.ledger chat_id (deletion_limit now)) s.ledger
  exact ⟨k, by rw [chatCleanup_attempted_eq, hk]⟩

/-- C2 (counterexample): a per-chat cleanup of chat 7 over five eligible
messages in which the 3rd deletion raises `Unauthorized` does stop after the
3rd attempt and abandons the chat — but messages 4 and 5 are not left in the
ledger: the abandonment cascade (`_abandon_chat` calls
`delete_chat_messages`) deletes every remaining record of the chat, so the
final ledger does not contain them. -/
theorem forbidden_abort_counterexample :
    (chatCleanup exTransportA 172800 7 exStateA).attempted =
        [(101 : Int), 102, 103] ∧
      (chatCleanup exTransportA 172800 7 exStateA).state.active_groups = [] ∧
      (⟨104, 7, 20⟩ : MessageEntity) ∉
        (chatCleanup exTransportA 172800 7 exStateA).state.ledger ∧
      (⟨105, 7, 10⟩ : MessageEntity) ∉
        (chatCleanup exTransportA 172800 7 exStateA).state.ledger := by
  decide

/-- C2 (amended): in a per-chat cleanup over five eligible messages where the
first two deletions succeed and the 3rd raises `Unauthorized`: deletions of
messages 4 and 5 are never attempted, messages 1 and 2 are removed from the
ledger at deletion time, the chat is abandoned (removed from the active set),
and the abandonment cascade removes every remaining ledger record of the chat
(messages 3, 4 and 5 included); no report is sent and no exception escapes. -/
theorem forbidden_abort_amended (tp : ChatTransport) (now chat_id : Int)
    (s : BotState) (m1 m2 m3 m4 m5 : MessageEntity)
    (hrec : get_chat_messages s.ledger chat_id (deletion_limit now) =
      [m1, m2, m3, m4, m5])
    (h1 : tp.del m1.message_id = DeleteOutcome.ok true)
    (h2 : tp.del m2.message_id = DeleteOutcome.ok true)
    (h3 : tp.del m3.message_id = DeleteOutcome.unauthorized) :
    (chatCleanup tp now chat_id s).attempted =
        [m1.message_id, m2.message_id, m3.message_id] ∧
      (chatCleanup tp now chat_id s).state =
        abandon_chat chat_id
          { s with ledger := remove_message (remove_message s.ledger m1) m2 } ∧
      (∀ r ∈ (chatCleanup tp now chat_id s).state.ledger, r.chat_id ≠ chat_id) ∧
      (chatCleanup tp now chat_id s).sentReport = none ∧
      (chatCleanup tp now chat_id s).exn = none := by
  have hloop : deletionLoop tp s.ledger [m1, m2, m3, m4, m5] =
      ⟨remove_message (remove_message s.ledger m1) m2, 2,
        [m1.message_id, m2.message_id, m3.message_id], true⟩ := by
    simp [deletionLoop, h1, h2, h3]
  have hcc : chatCleanup tp now chat_id s =
      { state := abandon_chat chat_id
          { s with ledger := remove_message (remove_message s.ledger m1) m2 }
        exn := none
        attempted := [m1.message_id, m2.message_id, m3.message_id]
        sentReport := none } := by
    simp only [chatCleanup, hrec, hloop, if_pos]
  rw [hcc]
  refine ⟨rfl, rfl, ?_, rfl, rfl⟩
  intro r hr
  exact mem_delete_chat_messages hr

/-- Witness for C2 (amended) at the concrete five-message state. -/
theorem forbidden_abort_amended_witness :
    (chatCleanup exTransportA 172800 7 exStateA).attempted =
        [(101 : Int), 102, 103] ∧
      (chatCleanup exTransportA 172800 7 exStateA).state =
        abandon_chat 7
          { exStateA with ledger :=
              (remove_message (remove_message exStateA.ledger ⟨101, 7, 50⟩)
                ⟨102, 7, 40⟩) } ∧
      (∀ r ∈ (chatCleanup exTransportA 172800 7 exStateA).state.ledger,
        r.chat_id ≠ 7) ∧
      (chatCleanup exTransportA 172800 7 exStateA).sentReport = none ∧
      (chatCleanup exTransportA 172800 7 exStateA).exn = none :=
  forbidden_abort_amended exTransportA 172800 7 exStateA
    ⟨101, 7, 50⟩ ⟨102, 7, 40⟩ ⟨103, 7, 30⟩ ⟨104, 7, 20⟩ ⟨105, 7, 10⟩
    (by decide) (by decide) (by decide) (by decide)

/-- C3: the claim says that when sending the final status report fails with
Forbidden/Unauthorized, the procedure abandons the chat and returns
immediately, raising no error to the caller.  In the code
`_send_status_message` does abandon the chat and swallows `Unauthorized`, but
it returns `None`, and `_chat_cleanup` then calls `_retain_message(None)`,
which evaluates `None.chat` and raises `AttributeError` to the caller.  This
theorem evaluates the embedded cleanup at such an input: the chat is abandoned
through the same `_abandon_chat` as the mid-loop path and no report record is
inserted, but an exception does escape. -/
theorem report_unauthorized_raises :
    (chatCleanup exTransportB 172800 9 exStateB).exn =
        some PyExn.attributeError ∧
      (chatCleanup exTransportB 172800 9 exStateB).state =
        abandon_chat 9 { exStateB with ledger := [] } ∧
      (chatCleanup exTransportB 172800 9 exStateB).state.ledger = [] ∧
      (chatCleanup exTransportB 172800 9 exStateB).state.active_groups = [] := by
  decide

/-- C9: a per-chat cleanup over zero eligible messages sends exactly the
report string composed from counts 0 and 0, no exception escapes, and when the
send returns a group-chat message, that report message is inserted into the
ledger as a newly tracked message of the chat. -/
theorem zero_eligible_report (tp : ChatTransport) (now chat_id : Int)
    (s : BotState) (msg : TgMessage)
    (hrec : get_chat_messages s.ledger chat_id (deletion_limit now) = [])
    (hsend : tp.send = SendOutcome.ok msg)
    (hchat : msg.chat_id = chat_id)
    (hty : msg.chat_type = ChatType.group ∨ msg.chat_type = ChatType.supergroup) :
    (chatCleanup tp now chat_id s).sentReport =
        some "Removed 0 recent messages. Failed to remove: 0." ∧
      (chatCleanup tp now chat_id s).state.ledger =
        add_message s.ledger ⟨msg.message_id, chat_id, msg.date⟩ ∧
      (chatCleanup tp now chat_id s).exn = none := by
  have h0 : chatCleanup tp now chat_id s =
      { state := retain_message msg s
        exn := none
        attempted := []
        sentReport := some ("Removed " ++ toString (0 : Nat) ++
          " recent messages. Failed to remove: " ++ toString (0 : Nat) ++ ".") } := by
    simp [chatCleanup, hrec, hsend, deletionLoop]
  have hstr : ("Removed " ++ toString (0 : Nat) ++
      " recent messages. Failed to remove: " ++ toString (0 : Nat) ++ ".") =
      "Removed 0 recent messages. Failed to remove: 0." := by decide
  refine ⟨?_, ?_, ?_⟩
  · rw [h0, ← hstr]
  · simp [chatCleanup, hrec, hsend, deletionLoop, retain_message, hty, hchat]
  · rw [h0]

/-- Witness for C9 at a concrete empty-ledger state for chat 200. -/
theorem zero_eligible_report_witness :
    (chatCleanup exTransportD 172800 200 exStateD).sentReport =
        some "Removed 0 recent messages. Failed to remove: 0." ∧
      (chatCleanup exTransportD 172800 200 exStateD).state.ledger =
        add_message exStateD.ledger ⟨11, 200, 30⟩ ∧
      (chatCleanup exTransportD 172800 200 exStateD).exn = none :=
  zero_eligible_report exTransportD 172800 200 exStateD
    ⟨11, 200, 30, ChatType.group⟩ (by decide) rfl rfl (Or.inl rfl)

/-- C10 (counterexample): a record sitting exactly on the cutoff is indeed
never selected for deletion and never pruned, but it does not always survive a
global cleanup whose chats are not abandoned: the table keys rows by
`message_id` alone, so when the status report sent in chat 200 is recorded
under the same `message_id` 5, the boundary record of chat 100 is overwritten
even though no chat was abandoned during the run. -/
theorem cutoff_boundary_counterexample :
    (⟨5, 100, 0⟩ : MessageEntity).timestamp = deletion_limit 172800 ∧
      (⟨5, 100, 0⟩ : MessageEntity) ∈ exStateE.ledger ∧
      (totalCleanup exTransportE 172800 exStateE).1.active_groups = [200] ∧
      (⟨5, 100, 0⟩ : MessageEntity) ∉
        (totalCleanup exTransportE 172800 exStateE).1.ledger := by
  decide

/-- C10 (amended): a record whose timestamp equals the cutoff exactly is never
selected as eligible (strict greater-than), is kept by the global prune
(strict less-than), and survives an entire global cleanup unchanged provided
its own chat's transport raises no `Unauthorized` (so its chat is not
abandoned) and no status report sent during the cleanup reuses its
`message_id` (the table keys rows by `message_id` alone). -/
theorem cutoff_boundary_survival (tps : Int → ChatTransport) (now : Int)
    (s : BotState) (r : MessageEntity)
    (hr : r ∈ s.ledger) (hu : uniqueIds s.ledger)
    (ht : r.timestamp = deletion_limit now)
    (hdel : ∀ mid, (tps r.chat_id).del mid ≠ DeleteOutcome.unauthorized)
    (hsnd : (tps r.chat_id).send ≠ SendOutcome.unauthorized)
    (hrep : ∀ c msg, (tps c).send = SendOutcome.ok msg →
      msg.message_id ≠ r.message_id) :
    (∀ c, r ∉ get_chat_messages s.ledger c (deletion_limit now)) ∧
      r ∈ remove_outdated_messages s.ledger (deletion_limit now) ∧
      r ∈ (totalCleanup tps now s).1.ledger := by
  refine ⟨?_, ?_, ?_⟩
  · intro c hc
    obtain ⟨_, _, hlt⟩ := mem_of_mem_get_chat_messages hc
    rw [ht] at hlt
    exact lt_irrefl _ hlt
  · rw [remove_outdated_messages, List.mem_filter, decide_eq_true_eq]
    exact ⟨hr, by rw [ht]; exact lt_irrefl _⟩
  · have hkeep := processChats_keeps tps now r ht ⟨hdel, hsnd⟩ hrep
      s.active_groups s hr hu
    simp only [totalCleanup, remove_outdated_messages]
    rw [List.mem_filter, decide_eq_true_eq]
    exact ⟨hkeep.1, by rw [ht]; exact lt_irrefl _⟩

/-- Witness for C10 (amended) at a concrete boundary record of chat 5. -/
theorem cutoff_boundary_survival_witness :
    (∀ c, (⟨1, 5, 0⟩ : MessageEntity) ∉
        get_chat_messages exStateF.ledger c (deletion_limit 172800)) ∧
      (⟨1, 5, 0⟩ : MessageEntity) ∈
        remove_outdated_messages exStateF.ledger (deletion_limit 172800) ∧
      (⟨1, 5, 0⟩ : MessageEntity) ∈
        (totalCleanup exTransportF 172800 exStateF).1.ledger :=
  cutoff_boundary_survival exTransportF 172800 exStateF ⟨1, 5, 0⟩
    (by decide) (by decide) (by decide)
    (fun _ h => DeleteOutcome.noConfusion h)
    (fun h => SendOutcome.noConfusion h)
    (by
      intro c msg h
      have h' : SendOutcome.ok (⟨2, 5, 100, ChatType.group⟩ : TgMessage) =
          SendOutcome.ok msg := h
      injection h' with h1
      rw [← h1]
      decide)
